import Mathlib

/-!
Shallow embedding of `src/flipton/instanceswitcher.py`.

Python strings are modelled as `List Char`; Python dicts as association
lists with first-match lookup; the external Mastodon library (URL parsing,
client construction, app registration, account lookup, generic method
calls) as a record of deterministic oracles (`Env`).  Every operation
returns, besides its result and the successor state, a trace of the
network-level events it performed, so that claims of the form "no network
call happens" or "creation is attempted at most once" are statable.
-/

namespace Flipton

/-- Python strings, modelled as lists of characters. -/
abbrev Str := List Char

/-- Opaque handle of a successfully constructed `Mastodon` client. -/
abbrev Client := Nat

/-- Opaque application-credential pair (`{"id": ..., "secret": ...}`). -/
abbrev AppToken := Nat

/-- Opaque response value returned by a library call. -/
abbrev Response := Nat

/-- Opaque `AttribAccessList` pagination page. -/
abbrev Page := Nat

/-- Values passed as keyword arguments to library methods. -/
inductive Value where
  | int (n : Int)
  | str (s : Str)
  | page (p : Page)
  deriving DecidableEq, Repr

/-- Keyword arguments of a call, as an association list (first match wins). -/
abbrev KwArgs := List (Str × Value)

/-- First-match lookup in an association list (Python `d[k]` / `k in d`). -/
def alookup {α : Type} : List (Str × α) → Str → Option α
  | [], _ => none
  | (k, v) :: rest, key => if k = key then some v else alookup rest key

/-- Python `d[k] = v`: replace the first binding of `k`, or append one. -/
def ainsert {α : Type} : List (Str × α) → Str → α → List (Str × α)
  | [], key, v => [(key, v)]
  | (k, w) :: rest, key, v =>
    if k = key then (key, v) :: rest else (k, w) :: ainsert rest key v

/-- Errors an underlying library call can raise. -/
inductive CallErr where
  | masto (msg : Str)
  | other (msg : Str)
  deriving DecidableEq, Repr

/-- Arguments given to the `Mastodon` constructor (lines 146-148). -/
inductive MastoArgs where
  | plain (base : Str)
  | withToken (tok : AppToken) (base : Str)
  deriving DecidableEq, Repr

/-- Deterministic oracles for everything outside this module: `parse_url`,
the `Mastodon` constructor (`none` models a raised `MastodonError`),
`Mastodon.create_app` (`none` models a raised `MastodonError`),
`account_lookup` followed by the `["id"]` access (`none` models any raised
exception), and a generic library method call. -/
structure Env where
  parseHostname : Str → Str
  newClient : MastoArgs → Option Client
  createApp : Str → Option AppToken
  lookupAccount : Client → Str → Option Int
  callMethod : Client → Str → KwArgs → Except CallErr Response

/-- Network-level events performed by an operation. -/
inductive Ev where
  | createClient (host : Str)
  | createApp (host : Str)
  | lookup (acct : Str)
  | call (host : Str) (method : Str)
  deriving DecidableEq, Repr

/-- The mutable state of a `MastodonInstanceSwitcher` (lines 68-81).
`clients` maps a hostname to `some client` or to `none` for a recorded
creation failure; file persistence of `appTokens` is an external effect
and not part of the state. -/
structure SwState where
  useAppTokens : Bool
  appTokens : List (Str × AppToken)
  clients : List (Str × Option Client)
  active_host : Option Str
  previous_host : Option Str
  acct_ids : List (Str × Option Int)
  deriving DecidableEq, Repr

/-- Structured payloads of the errors raised by this module, one
constructor per `raise` site (identified by source line). -/
inductive FMsg where
  | callClientErr (method : Str) (host : Str) (underlying : Str)
  | requiresAcct (method : Str)
  | malformedAcct (method : Str)
  | needHostFormat (method : Str)
  | connectFailedAcct (method : Str) (acct : Str)
  | idLookupFailed (method : Str) (acct : Str)
  | requestFailedAcct (method : Str) (acct : Str) (underlying : Str)
  | requiresHost (method : Str)
  | connectFailedHost (method : Str) (host : Option Str)
  | requestFailedHost (method : Str) (host : Option Str) (underlying : Str)
  deriving DecidableEq, Repr

/-- Python exceptions that can escape the module's public operations. -/
inductive PyErr where
  | flipton (m : FMsg)
  | exception (m : FMsg)
  | attributeError
  | keyError
  | indexError
  | assertionError
  | pyOther (msg : Str)
  deriving DecidableEq, Repr

/-- Result of an operation: its return value or raised exception, the
successor state, and the trace of network events performed. -/
structure Outcome (α : Type) where
  result : α
  state : SwState
  trace : List Ev
  deriving DecidableEq, Repr

/-- Lines 150-160: attempt `Mastodon(**masto_args)`.  On success the client
is cached and activated.  On `MastodonError` the handler (lines 152-156)
caches `None` and sets `active_host = None`, but execution then falls
through to line 160, `self.active_host = host`, which overwrites the
`None`; the embedding records the net effect. -/
def attemptCreate (env : Env) (st : SwState) (host : Str) (args : MastoArgs) :
    SwState × List Ev :=
  match env.newClient args with
  | some c =>
    ({ st with clients := ainsert st.clients host (some c),
               active_host := some host }, [Ev.createClient host])
  | none =>
    ({ st with clients := ainsert st.clients host none,
               active_host := some host }, [Ev.createClient host])

/-- Lines 120-161, `set_host`.  The `_get_app_token` helper (lines 163-177)
is inlined in the `useAppTokens` branch; its pickle-file update is an
external effect outside the state. -/
def set_host (env : Env) (st : SwState) (hostname : Option Str) :
    SwState × List Ev :=
  match hostname with
  | none => ({ st with active_host := none }, [])
  | some hn =>
    let host := env.parseHostname hn
    let st1 := { st with previous_host := some host }
    if st1.active_host = some host then (st1, [])
    else
      match alookup st1.clients host with
      | some none => ({ st1 with active_host := none }, [])
      | some (some _) => ({ st1 with active_host := some host }, [])
      | none =>
        if st1.useAppTokens then
          match alookup st1.appTokens host with
          | some tok => attemptCreate env st1 host (.withToken tok host)
          | none =>
            match env.createApp host with
            | none =>
              ({ st1 with clients := ainsert st1.clients host none,
                          active_host := none }, [Ev.createApp host])
            | some tok =>
              let st2 := { st1 with appTokens := ainsert st1.appTokens host tok }
              let r := attemptCreate env st2 host (.withToken tok host)
              (r.1, Ev.createApp host :: r.2)
        else attemptCreate env st1 host (.plain host)

/-- Lines 180-204, `get_acct_id`.  On the miss path, if after `set_host`
there is an active host whose cached client is `None` (or missing), the
attribute access on `None` raises and is caught by the bare
`except Exception` without any network lookup having happened. -/
def get_acct_id (env : Env) (st : SwState) (user host : Str) :
    Outcome (Option Int) :=
  let acct := user ++ '@' :: host
  match alookup st.acct_ids acct with
  | some cached => ⟨cached, st, []⟩
  | none =>
    let orig := st.active_host
    match set_host env st (some host) with
    | (st1, t1) =>
      match st1.active_host with
      | none =>
        match set_host env st1 orig with
        | (st2, t2) => ⟨none, st2, t1 ++ t2⟩
      | some ah =>
        match alookup st1.clients ah with
        | some (some c) =>
          match set_host env st1 orig with
          | (st2, t2) =>
            ⟨env.lookupAccount c acct,
              { st2 with acct_ids :=
                  ainsert st2.acct_ids acct (env.lookupAccount c acct) },
              t1 ++ [Ev.lookup acct] ++ t2⟩
        | some none =>
          match set_host env st1 orig with
          | (st2, t2) =>
            ⟨none, { st2 with acct_ids := ainsert st2.acct_ids acct none },
              t1 ++ t2⟩
        | none =>
          match set_host env st1 orig with
          | (st2, t2) =>
            ⟨none, { st2 with acct_ids := ainsert st2.acct_ids acct none },
              t1 ++ t2⟩

/-- Lines 207-215, `_call_client`.  `clients[None]` or a missing key raises
`KeyError`; `getattr(None, name)` raises `AttributeError`; a raised
`MastodonError` is wrapped into `FliptonError`.  The state is unchanged. -/
def call_client (env : Env) (st : SwState) (name : Str) (kwargs : KwArgs) :
    Except PyErr Response × List Ev :=
  match st.active_host with
  | none => (.error .keyError, [])
  | some ah =>
    match alookup st.clients ah with
    | none => (.error .keyError, [])
    | some none => (.error .attributeError, [])
    | some (some c) =>
      match env.callMethod c name kwargs with
      | .ok r => (.ok r, [Ev.call ah name])
      | .error (.masto m) =>
        (.error (.flipton (.callClientErr name ah m)), [Ev.call ah name])
      | .error (.other m) => (.error (.pyOther m), [Ev.call ah name])

/-- The merged kwargs `{**{"id": acct_id}, **kwargs}` of lines 263/265:
`kwargs` overrides the `"id"` entry when it carries one. -/
def mergeId (kwargs : KwArgs) (acctId : Int) : KwArgs :=
  match alookup kwargs ("id".data) with
  | some _ => kwargs
  | none => ainsert kwargs ("id".data) (.int acctId)

/-- The method-name redirection of lines 262-265: `account_lookup` is
dispatched to the library's `account` method. -/
def redirect (name : Str) : Str :=
  if name = ("account_lookup".data) then ("account".data) else name

/-- Lines 261-270: the final call of an account-addressed method.  The
`except MastodonError` handler of lines 266-267 is unreachable, because
`_call_client` already converts `MastodonError` into `FliptonError`, so it
is not part of the embedding.  The `finally` of line 269 restores
`active_host` to `orig` on every exit. -/
def dispatch_call (env : Env) (st : SwState) (name : Str) (acctId : Int)
    (kwargs : KwArgs) (orig : Option Str) : Outcome (Except PyErr Response) :=
  let p := call_client env st (redirect name) (mergeId kwargs acctId)
  ⟨p.1, { st with active_host := orig }, p.2⟩

/-- Lines 252-270: the tail of an account-addressed method after the target
host has been determined (and, for the `user@host` form, activated).
Line 254 raises a bare `Exception`, not a `FliptonError`. -/
def after_switch (env : Env) (st1 : SwState) (t1 : List Ev) (name user host : Str)
    (acctS : Str) (kwargs : KwArgs) (orig : Option Str) :
    Outcome (Except PyErr Response) :=
  match st1.active_host with
  | none =>
    ⟨.error (.exception (.connectFailedAcct name acctS)),
      { st1 with active_host := orig }, t1⟩
  | some _ =>
    match get_acct_id env st1 user host with
    | ⟨none, st2, t2⟩ =>
      ⟨.error (.flipton (.idLookupFailed name acctS)),
        { st2 with active_host := orig }, t1 ++ t2⟩
    | ⟨some i, st2, t2⟩ =>
      ⟨(dispatch_call env st2 name i kwargs orig).result,
        (dispatch_call env st2 name i kwargs orig).state,
        t1 ++ t2 ++ (dispatch_call env st2 name i kwargs orig).trace⟩

/-- Python `s.split(sep)` for a one-character separator. -/
def pySplit (sep : Char) : Str → List Str
  | [] => [[]]
  | c :: rest =>
    if c = sep then [] :: pySplit sep rest
    else
      match pySplit sep rest with
      | [] => [[c]]
      | s :: ss => (c :: s) :: ss

/-- Lines 234-236: strip one leading `'@'` from a nonempty handle. -/
def stripAt : Str → Str
  | [] => []
  | c :: rest => if c = '@' then rest else c :: rest

/-- The `acct` argument of an account-addressed method. -/
inductive AcctArg where
  | noneA
  | intA (n : Int)
  | strA (s : Str)
  deriving DecidableEq, Repr

/-- Lines 219-272, the body generated by `generate_account_method`.
`acct[0]` on the empty string raises `IndexError`. -/
def account_method (env : Env) (st : SwState) (name : Str) (acct : AcctArg)
    (kwargs : KwArgs) : Outcome (Except PyErr Response) :=
  let orig := st.active_host
  match acct with
  | .intA n => dispatch_call env st name n kwargs orig
  | .noneA => ⟨.error (.flipton (.requiresAcct name)), st, []⟩
  | .strA s =>
    match s with
    | [] => ⟨.error .indexError, st, []⟩
    | c :: rest =>
      match pySplit '@' (stripAt (c :: rest)) with
      | [u] =>
        match st.active_host with
        | none => ⟨.error (.flipton (.needHostFormat name)), st, []⟩
        | some h => after_switch env st [] name u h (stripAt (c :: rest)) kwargs orig
      | [u, h] =>
        match set_host env st (some h) with
        | (st1, t1) => after_switch env st1 t1 name u h (stripAt (c :: rest)) kwargs orig
      | _ => ⟨.error (.flipton (.malformedAcct name)), st, []⟩

/-- The `host` argument of an instance-addressed method. -/
inductive HostArg where
  | noneA
  | strA (s : Str)
  | pageA (p : Page)
  deriving DecidableEq, Repr

/-- Lines 288-301: the tail of an instance-addressed method once the target
host (possibly `None`) is determined.  The `except MastodonError` handler
of lines 297-298 is unreachable (`_call_client` already converts), so it is
not part of the embedding; the `finally` of line 300 restores
`active_host` on every exit. -/
def run_instance (env : Env) (st : SwState) (name : Str) (hostOpt : Option Str)
    (kwargs : KwArgs) (orig : Option Str) : Outcome (Except PyErr Response) :=
  match set_host env st hostOpt with
  | (st1, t1) =>
    match st1.active_host with
    | none =>
      ⟨.error (.flipton (.connectFailedHost name hostOpt)),
        { st1 with active_host := orig }, t1⟩
    | some _ =>
      ⟨(call_client env st1 name kwargs).1, { st1 with active_host := orig },
        t1 ++ (call_client env st1 name kwargs).2⟩

/-- Lines 275-303, the body generated by `generate_instance_method`.  A
pagination page as `host` is only legal for `fetch_*` methods (the
`assert` of line 280); it forwards the page as `first_page` and reuses
`previous_host`. -/
def instance_method (env : Env) (st : SwState) (name : Str) (host : HostArg)
    (kwargs : KwArgs) : Outcome (Except PyErr Response) :=
  let orig := st.active_host
  match host with
  | .pageA p =>
    if List.take 6 name = ("fetch_".data) then
      run_instance env st name st.previous_host
        (ainsert kwargs ("first_page".data) (.page p)) orig
    else ⟨.error .assertionError, st, []⟩
  | .noneA =>
    match st.active_host with
    | none => ⟨.error (.flipton (.requiresHost name)), st, []⟩
    | some h => run_instance env st name (some h) kwargs orig
  | .strA s => run_instance env st name (some s) kwargs orig

/-! ### Helper lemmas -/

theorem dispatch_call_active (env : Env) (st : SwState) (name : Str) (i : Int)
    (kw : KwArgs) (orig : Option Str) :
    (dispatch_call env st name i kw orig).state.active_host = orig := rfl

theorem after_switch_active (env : Env) (st1 : SwState) (t1 : List Ev)
    (name u h acctS : Str) (kw : KwArgs) (orig : Option Str) :
    (after_switch env st1 t1 name u h acctS kw orig).state.active_host = orig := by
  unfold after_switch
  split
  · rfl
  · split <;> rfl

theorem run_instance_active (env : Env) (st : SwState) (name : Str)
    (hostOpt : Option Str) (kw : KwArgs) (orig : Option Str) :
    (run_instance env st name hostOpt kw orig).state.active_host = orig := by
  unfold run_instance
  split
  split <;> rfl

theorem account_method_active (env : Env) (st : SwState) (name : Str)
    (acct : AcctArg) (kw : KwArgs) :
    (account_method env st name acct kw).state.active_host = st.active_host := by
  unfold account_method
  cases acct with
  | intA n => exact dispatch_call_active ..
  | noneA => rfl
  | strA s =>
    cases s with
    | nil => rfl
    | cons c rest =>
      simp only
      split
      · split
        · rfl
        · exact after_switch_active ..
      · exact after_switch_active ..
      · rfl

theorem instance_method_active (env : Env) (st : SwState) (name : Str)
    (harg : HostArg) (kw : KwArgs) :
    (instance_method env st name harg kw).state.active_host = st.active_host := by
  unfold instance_method
  cases harg with
  | pageA p =>
    simp only
    split
    · exact run_instance_active ..
    · rfl
  | noneA =>
    simp only
    split
    · rfl
    · exact run_instance_active ..
  | strA s => exact run_instance_active ..

/-! ### Concrete inputs used by counterexamples and witnesses -/

/-- An environment in which every external operation fails. -/
def envFail : Env :=
  ⟨id, fun _ => none, fun _ => none, fun _ _ => none,
    fun _ _ _ => .error (.masto [])⟩

/-- An environment in which every external operation succeeds. -/
def envOk : Env :=
  ⟨id, fun _ => some 0, fun _ => some 1, fun _ _ => some 7, fun _ _ _ => .ok 1⟩

/-- The state of a freshly constructed switcher (lines 75-81). -/
def stEmpty : SwState := ⟨false, [], [], none, none, []⟩

/-- A session state in which client creation for `"h"` has already failed. -/
def stFailedH : SwState := ⟨false, [], [(['h'], none)], none, none, []⟩

/-- A session state with a live client for `"h"` as the active host. -/
def stActiveH : SwState := ⟨false, [], [(['h'], some 0)], some ['h'], none, []⟩

/-- A session state whose id cache already holds an id for `"u@h"`. -/
def stCachedU7 : SwState :=
  ⟨false, [], [], none, none, [(['u', '@', 'h'], some 7)]⟩

/-! ### Claims -/

/-- C1: for every generated public call (account-addressed or
instance-addressed), whether the call returns a response or raises, the
active host after the call equals its value immediately before the call. -/
theorem C1_public_call_restores_active_host (env : Env) (st : SwState)
    (name : Str) (acct : AcctArg) (harg : HostArg) (kwargs : KwArgs) :
    (account_method env st name acct kwargs).state.active_host = st.active_host ∧
    (instance_method env st name harg kwargs).state.active_host = st.active_host :=
  ⟨account_method_active .., instance_method_active ..⟩

/-- C2 (code bug): when `set_host("h")` is called on a fresh session and
client creation fails with `MastodonError`, the handler of lines 152-156
caches the failure and sets `active_host = None`, but the fall-through
assignment `self.active_host = host` of line 160 then runs anyway, so the
call ends with `"h"` as the active host instead of no active host. -/
theorem C2_fresh_creation_failure_activates_host :
    (set_host envFail stEmpty (some ['h'])).1.active_host = some ['h'] ∧
    (set_host envFail stEmpty (some ['h'])).1.clients = [(['h'], none)] :=
  ⟨rfl, rfl⟩

/-- C3 (code bug): an account-addressed call whose target host cannot be
connected to (here: creation already failed, so `set_host` leaves no
active host) raises the bare `Exception` of line 254, not the domain
error type `FliptonError`. -/
theorem C3_connect_failure_raises_bare_exception :
    (account_method envFail stFailedH ['m'] (.strA ['u', '@', 'h']) []).result
      = .error (.exception (.connectFailedAcct ['m'] ['u', '@', 'h'])) := rfl

/-- C4: once client creation for a host has failed in a session (its
`clients` entry is cached as `None`), a later `set_host` for that host
performs no network event at all (in particular no client construction)
and leaves the client cache unchanged. -/
theorem C4_failed_host_not_retried (env : Env) (st : SwState) (hn : Str)
    (h : alookup st.clients (env.parseHostname hn) = some none) :
    (set_host env st (some hn)).2 = [] ∧
    (set_host env st (some hn)).1.clients = st.clients := by
  obtain ⟨ua, tk, cl, ah, ph, ai⟩ := st
  unfold set_host
  simp only at h ⊢
  split
  · exact ⟨rfl, rfl⟩
  · rw [h]
    exact ⟨rfl, rfl⟩

/-- C4 witness. -/
theorem C4_witness :
    alookup stFailedH.clients (envFail.parseHostname ['h']) = some none ∧
    (set_host envFail stFailedH (some ['h'])).2 = [] ∧
    (set_host envFail stFailedH (some ['h'])).1.clients = stFailedH.clients :=
  ⟨rfl, C4_failed_host_not_retried envFail stFailedH ['h'] rfl⟩

theorem set_host_noop (env : Env) (st : SwState) (hn : Str)
    (h : st.active_host = some (env.parseHostname hn)) :
    set_host env st (some hn)
      = ({ st with previous_host := some (env.parseHostname hn) }, []) := by
  obtain ⟨ua, tk, cl, ah, ph, ai⟩ := st
  simp only at h
  subst h
  simp [set_host]

/-- A state with an active host and a stale `previous_host`, reachable
for instance by an instance-addressed call on host `"b"` issued while
`"a"` is active (the call's `finally` restores `active_host` directly,
leaving `previous_host = "b"`). -/
def stActiveAB : SwState :=
  ⟨false, [], [(['a'], some 0)], some ['a'], some ['b'], []⟩

/-- C5 counterexample: switching to the already-active host `"a"` from a
state whose `previous_host` is `"b"` changes `previous_host`, so the call
is not a no-op on the dispatcher state. -/
theorem C5_counterexample_previous_host_changes :
    (set_host envOk stActiveAB (some ['a'])).1.previous_host
      ≠ stActiveAB.previous_host := by decide

/-- C5 (corrected): switching to the already-active host creates no
client, performs no network event, and leaves every component of the
state unchanged except `previous_host`, which line 126 sets to the parsed
requested host before the already-active check of line 127. -/
theorem C5_switch_to_active_host (env : Env) (st : SwState) (hn : Str)
    (h : st.active_host = some (env.parseHostname hn)) :
    set_host env st (some hn)
      = ({ st with previous_host := some (env.parseHostname hn) }, []) :=
  set_host_noop env st hn h

/-- C5 witness. -/
theorem C5_witness :
    stActiveAB.active_host = some (envOk.parseHostname ['a']) ∧
    set_host envOk stActiveAB (some ['a'])
      = ({ stActiveAB with previous_host := some (envOk.parseHostname ['a']) }, []) :=
  ⟨rfl, C5_switch_to_active_host envOk stActiveAB ['a'] rfl⟩

theorem pySplit_ne_nil (sep : Char) (l : Str) : pySplit sep l ≠ [] := by
  induction l with
  | nil => simp [pySplit]
  | cons c rest ih =>
    unfold pySplit
    split
    · simp
    · split <;> simp

theorem pySplit_length (sep : Char) (l : Str) :
    (pySplit sep l).length = l.count sep + 1 := by
  induction l with
  | nil => simp [pySplit]
  | cons c rest ih =>
    unfold pySplit
    by_cases hc : c = sep
    · subst hc
      simp [List.count_cons, ih]
    · rw [if_neg hc]
      rcases hsp : pySplit sep rest with _ | ⟨s, ss⟩
      · exact absurd hsp (pySplit_ne_nil _ _)
      · have hlen : (s :: ss).length = rest.count sep + 1 := hsp ▸ ih
        simp only [List.length_cons] at hlen ⊢
        have hcnt : (c :: rest).count sep = rest.count sep := by
          simp [List.count_cons, hc]
        omega

/-- C7: an account-addressed call whose `acct` string, after stripping one
leading `'@'`, still contains two or more `'@'` separators raises a
`FliptonError` (line 243) with the state unchanged and an empty event
trace: no network operation, no host switch, no cache mutation. -/
theorem C7_malformed_acct_rejected_before_any_effect (env : Env)
    (st : SwState) (name : Str) (s : Str) (kwargs : KwArgs)
    (h2 : 2 ≤ (stripAt s).count '@') :
    account_method env st name (.strA s) kwargs
      = ⟨.error (.flipton (.malformedAcct name)), st, []⟩ := by
  cases s with
  | nil => simp [stripAt] at h2
  | cons c rest =>
    have hlen : 3 ≤ (pySplit '@' (stripAt (c :: rest))).length := by
      rw [pySplit_length]
      omega
    unfold account_method
    simp only
    rcases hsp : pySplit '@' (stripAt (c :: rest)) with _ | ⟨x, _ | ⟨y, _ | ⟨z, tl⟩⟩⟩
    · exact absurd hsp (pySplit_ne_nil _ _)
    · rw [hsp] at hlen
      simp at hlen
    · rw [hsp] at hlen
      simp at hlen
    · rfl

/-- C7 witness. -/
theorem C7_witness :
    2 ≤ (stripAt ['a', '@', 'b', '@', 'c']).count '@' ∧
    account_method envOk stEmpty ['m'] (.strA ['a', '@', 'b', '@', 'c']) []
      = ⟨.error (.flipton (.malformedAcct ['m'])), stEmpty, []⟩ :=
  ⟨by decide,
    C7_malformed_acct_rejected_before_any_effect envOk stEmpty ['m']
      ['a', '@', 'b', '@', 'c'] [] (by decide)⟩

theorem alookup_ainsert_self {α : Type} (l : List (Str × α)) (k : Str) (v : α) :
    alookup (ainsert l k v) k = some v := by
  induction l with
  | nil => simp [ainsert, alookup]
  | cons p rest ih =>
    obtain ⟨k', w⟩ := p
    unfold ainsert
    by_cases hk : k' = k
    · simp [hk, alookup]
    · simp [alookup, hk, ih]

theorem alookup_ainsert_ne {α : Type} (l : List (Str × α)) (k k' : Str) (v : α)
    (h : k ≠ k') : alookup (ainsert l k v) k' = alookup l k' := by
  induction l with
  | nil => simp [ainsert, alookup, h]
  | cons p rest ih =>
    obtain ⟨k'', w⟩ := p
    unfold ainsert
    by_cases hk : k'' = k
    · subst hk
      simp [alookup, h]
    · simp [alookup, hk, ih]

/-- C8 counterexample: in a session where client creation for `"h"` has
already failed, `get_acct_id("u","h")` returns `None` through the
no-connection path of lines 191-194 without writing anything into the id
cache, so after a first call has returned there need not be any cached
value for a second call to return: the second call misses the cache
again. -/
theorem C8_counterexample_no_value_cached :
    (get_acct_id envFail stFailedH ['u'] ['h']).result = none
    ∧ (get_acct_id envFail stFailedH ['u'] ['h']).state.acct_ids = []
    ∧ alookup (get_acct_id envFail stFailedH ['u'] ['h']).state.acct_ids
        (['u'] ++ '@' :: ['h']) = none := by decide

/-- C8 (corrected): whenever the id cache holds a value for `user@host`
(which a first `get_acct_id(u,h)` ensures exactly when it reached the
account lookup, i.e. unless connecting to `h` failed), `get_acct_id(u,h)`
returns the cached value with the state completely unchanged and an empty
event trace (no lookup, no client creation, no host switch); and a miss
that finds an active host after `set_host(h)` always caches the value it
returns. -/
theorem C8_second_resolution_hits_cache (env : Env) (st : SwState) (u h : Str) :
    (∀ v, alookup st.acct_ids (u ++ '@' :: h) = some v →
      get_acct_id env st u h = ⟨v, st, []⟩)
    ∧ (alookup st.acct_ids (u ++ '@' :: h) = none →
      ∀ ah, (set_host env st (some h)).1.active_host = some ah →
        alookup (get_acct_id env st u h).state.acct_ids (u ++ '@' :: h)
          = some (get_acct_id env st u h).result) := by
  constructor
  · intro v hv
    unfold get_acct_id
    simp only
    rw [hv]
  · intro hmiss ah hah
    unfold get_acct_id
    simp only [hmiss]
    simp only [hah]
    split <;> simp [alookup_ainsert_self]

/-- C8 witness. -/
theorem C8_witness :
    (alookup stCachedU7.acct_ids (['u'] ++ '@' :: ['h']) = some (some 7) ∧
      get_acct_id envOk stCachedU7 ['u'] ['h'] = ⟨some 7, stCachedU7, []⟩)
    ∧ (alookup stEmpty.acct_ids (['u'] ++ '@' :: ['h']) = none ∧
      (set_host envOk stEmpty (some ['h'])).1.active_host = some ['h'] ∧
      alookup (get_acct_id envOk stEmpty ['u'] ['h']).state.acct_ids
          (['u'] ++ '@' :: ['h'])
        = some (get_acct_id envOk stEmpty ['u'] ['h']).result) :=
  ⟨⟨rfl, (C8_second_resolution_hits_cache envOk stCachedU7 ['u'] ['h']).1
      (some 7) rfl⟩,
    ⟨rfl, rfl, (C8_second_resolution_hits_cache envOk stEmpty ['u'] ['h']).2
      rfl ['h'] rfl⟩⟩

/-- An eta lemma for full record updates of the active host. -/
theorem upd_active_self (st : SwState) :
    ({ st with active_host := st.active_host } : SwState) = st := by
  obtain ⟨ua, tk, cl, ah, ph, ai⟩ := st
  rfl

/-- C10: an account-addressed call given an integer `acct` uses the
integer directly as the account id: the state is returned unchanged (no
host switch, no cache mutation), the result is exactly that of
`_call_client` on the (possibly redirected) method name with the id
merged into the kwargs, and — when the active host `h` holds a live
client — the trace is the single library invocation against `h`. -/
theorem C10_int_acct_used_directly (env : Env) (st : SwState) (name : Str)
    (n : Int) (kwargs : KwArgs) (h : Str) (c : Client)
    (ha : st.active_host = some h)
    (hc : alookup st.clients h = some (some c)) :
    (account_method env st name (.intA n) kwargs).state = st
    ∧ (account_method env st name (.intA n) kwargs).result
        = (call_client env st (redirect name) (mergeId kwargs n)).1
    ∧ (account_method env st name (.intA n) kwargs).trace
        = [Ev.call h (redirect name)] := by
  refine ⟨upd_active_self st, rfl, ?_⟩
  show (call_client env st (redirect name) (mergeId kwargs n)).2
      = [Ev.call h (redirect name)]
  unfold call_client
  simp only [ha, hc]
  cases hm : env.callMethod c (redirect name) (mergeId kwargs n) with
  | ok r => rfl
  | error e => cases e <;> rfl

/-- C10 witness. -/
theorem C10_witness :
    stActiveH.active_host = some ['h']
    ∧ alookup stActiveH.clients ['h'] = some (some 0)
    ∧ (account_method envOk stActiveH ['m'] (.intA 5) []).state = stActiveH
    ∧ (account_method envOk stActiveH ['m'] (.intA 5) []).result
        = (call_client envOk stActiveH (redirect ['m']) (mergeId [] 5)).1
    ∧ (account_method envOk stActiveH ['m'] (.intA 5) []).trace
        = [Ev.call ['h'] (redirect ['m'])] := by
  refine ⟨rfl, rfl, ?_⟩
  have := C10_int_acct_used_directly envOk stActiveH ['m'] 5 [] ['h'] 0 rfl rfl
  exact this

@[simp] theorem prev_upd_useAppTokens (st : SwState) (p : Option Str) :
    ({ st with previous_host := p } : SwState).useAppTokens = st.useAppTokens := rfl

@[simp] theorem prev_upd_appTokens (st : SwState) (p : Option Str) :
    ({ st with previous_host := p } : SwState).appTokens = st.appTokens := rfl

@[simp] theorem prev_upd_clients (st : SwState) (p : Option Str) :
    ({ st with previous_host := p } : SwState).clients = st.clients := rfl

@[simp] theorem prev_upd_active (st : SwState) (p : Option Str) :
    ({ st with previous_host := p } : SwState).active_host = st.active_host := rfl

@[simp] theorem prev_upd_acct_ids (st : SwState) (p : Option Str) :
    ({ st with previous_host := p } : SwState).acct_ids = st.acct_ids := rfl

@[simp] theorem acct_upd_useAppTokens (st : SwState) (l : List (Str × Option Int)) :
    ({ st with acct_ids := l } : SwState).useAppTokens = st.useAppTokens := rfl

@[simp] theorem acct_upd_appTokens (st : SwState) (l : List (Str × Option Int)) :
    ({ st with acct_ids := l } : SwState).appTokens = st.appTokens := rfl

@[simp] theorem acct_upd_clients (st : SwState) (l : List (Str × Option Int)) :
    ({ st with acct_ids := l } : SwState).clients = st.clients := rfl

@[simp] theorem acct_upd_active (st : SwState) (l : List (Str × Option Int)) :
    ({ st with acct_ids := l } : SwState).active_host = st.active_host := rfl

@[simp] theorem acct_upd_acct_ids (st : SwState) (l : List (Str × Option Int)) :
    ({ st with acct_ids := l } : SwState).acct_ids = l := rfl

theorem set_host_to_none (env : Env) (st : SwState) :
    set_host env st none = ({ st with active_host := none }, []) := rfl

theorem set_host_acct_ids (env : Env) (st : SwState) (hostname : Option Str) :
    (set_host env st hostname).1.acct_ids = st.acct_ids := by
  obtain ⟨ua, tk, cl, ah, ph, ai⟩ := st
  cases hostname with
  | none => rfl
  | some hn =>
    unfold set_host attemptCreate
    simp only
    repeat' split
    all_goals rfl

theorem set_host_clients_lookup_other (env : Env) (st : SwState) (hn g : Str)
    (hne : env.parseHostname hn ≠ g) :
    alookup (set_host env st (some hn)).1.clients g = alookup st.clients g := by
  obtain ⟨ua, tk, cl, ah, ph, ai⟩ := st
  unfold set_host attemptCreate
  simp only
  repeat' split
  all_goals simp [alookup_ainsert_ne _ _ _ _ hne]

theorem set_host_activates (env : Env) (st : SwState) (g : Str) (c : Client)
    (hp : env.parseHostname g = g)
    (hcl : alookup st.clients g = some (some c)) :
    (set_host env st (some g)).1.active_host = some g := by
  obtain ⟨ua, tk, cl, ah, ph, ai⟩ := st
  simp only at hcl
  unfold set_host
  simp only [hp]
  split
  · next hcond => exact hcond
  · rw [hcl]

/-- After `set_host(h)` from a well-formed state (no active host, or an
active host with a live client and a stable hostname), the `finally`-style
call `set_host(orig_host)` re-establishes the original active host. -/
theorem set_host_restore_after (env : Env) (st : SwState) (h : Str)
    (hwf : st.active_host = none ∨ ∃ g c, st.active_host = some g
        ∧ env.parseHostname g = g ∧ alookup st.clients g = some (some c)) :
    (set_host env (set_host env st (some h)).1 st.active_host).1.active_host
      = st.active_host := by
  rcases hwf with hnone | ⟨g, c, hg, hp, hcl⟩
  · rw [hnone]
    rfl
  · rw [hg]
    by_cases hpar : env.parseHostname h = g
    · have hnoop : set_host env st (some h)
          = ({ st with previous_host := some (env.parseHostname h) }, []) :=
        set_host_noop env st h (by rw [hpar, hg])
      rw [hnoop]
      exact set_host_activates env _ g c hp (by simpa using hcl)
    · refine set_host_activates env _ g c hp ?_
      rw [set_host_clients_lookup_other env st h g hpar, hcl]

/-- A session state whose active host `"g"` has a failed (None) client —
reachable through the fall-through bug of line 160 — next to a live
client for `"b"`. -/
def stGfailedBlive : SwState :=
  ⟨false, [], [(['g'], none), (['b'], some 0)], some ['g'], none, []⟩

/-- C9 counterexample: (1) on a cache miss with a connection failure
(client for `"h"` cached as failed), `get_acct_id` returns `None` through
lines 191-194 without caching `None` — the id cache stays empty; (2) from
a reachable state whose active host `"g"` carries a failed client, the
final `set_host(orig_host)` of line 202 does not restore the original
active host: the call ends with no active host. -/
theorem C9_counterexample_no_caching_and_no_restore :
    ((get_acct_id envFail stFailedH ['u'] ['h']).result = none
      ∧ (get_acct_id envFail stFailedH ['u'] ['h']).state.acct_ids = [])
    ∧ (get_acct_id envFail stGfailedBlive ['u'] ['b']).state.active_host
        ≠ stGfailedBlive.active_host := by decide

/-- C9 (corrected): on a cache miss, `get_acct_id(u,h)` first switches to
`h`; if that leaves no active host (connection failure) it returns `None`
without touching the id cache; otherwise it caches exactly the value it
returns, and when the active host holds a live client that value is the
client's lookup answer.  The original active host is restored through
`set_host(orig_host)`, which re-establishes it provided the original
state was well formed (no active host, or an active host with a live
client under a stable hostname). -/
theorem C9_resolution_on_miss (env : Env) (st : SwState) (u h : Str)
    (hmiss : alookup st.acct_ids (u ++ '@' :: h) = none)
    (hwf : st.active_host = none ∨ ∃ g c, st.active_host = some g
        ∧ env.parseHostname g = g ∧ alookup st.clients g = some (some c)) :
    (get_acct_id env st u h).state.active_host = st.active_host
    ∧ ((set_host env st (some h)).1.active_host = none →
        (get_acct_id env st u h).result = none
        ∧ (get_acct_id env st u h).state.acct_ids = st.acct_ids)
    ∧ (∀ ah, (set_host env st (some h)).1.active_host = some ah →
        (get_acct_id env st u h).state.acct_ids
          = ainsert st.acct_ids (u ++ '@' :: h) (get_acct_id env st u h).result
        ∧ ∀ c, alookup (set_host env st (some h)).1.clients ah = some (some c) →
            (get_acct_id env st u h).result
              = env.lookupAccount c (u ++ '@' :: h)) := by
  have hrestore := set_host_restore_after env st h hwf
  unfold get_acct_id
  simp only [hmiss]
  rcases hact1 : (set_host env st (some h)).1.active_host with _ | ah0
  · simp only [hact1]
    refine ⟨hrestore, fun _ => ?_, fun ah hah => Option.noConfusion hah⟩
    simp [set_host_acct_ids]
  · simp only [hact1]
    rcases hcl0 : alookup (set_host env st (some h)).1.clients ah0
      with _ | (_ | c0)
    · simp only [hcl0]
      refine ⟨by simp [hrestore], fun hn => Option.noConfusion hn,
        fun ah hah => ?_⟩
      obtain rfl : ah0 = ah := Option.some_inj.mp hah
      refine ⟨by rw [set_host_acct_ids, set_host_acct_ids], fun c hc => ?_⟩
      rw [hcl0] at hc
      exact Option.noConfusion hc
    · simp only [hcl0]
      refine ⟨by simp [hrestore], fun hn => Option.noConfusion hn,
        fun ah hah => ?_⟩
      obtain rfl : ah0 = ah := Option.some_inj.mp hah
      refine ⟨by rw [set_host_acct_ids, set_host_acct_ids], fun c hc => ?_⟩
      rw [hcl0] at hc
      exact Option.noConfusion (Option.some_inj.mp hc)
    · simp only [hcl0]
      refine ⟨by simp [hrestore], fun hn => Option.noConfusion hn,
        fun ah hah => ?_⟩
      obtain rfl : ah0 = ah := Option.some_inj.mp hah
      refine ⟨by rw [set_host_acct_ids, set_host_acct_ids], fun c hc => ?_⟩
      rw [hcl0] at hc
      obtain rfl : c0 = c := by simpa using hc
      rfl

/-- C9 witness. -/
theorem C9_witness :
    (get_acct_id envOk stEmpty ['u'] ['h']).state.active_host
        = stEmpty.active_host
    ∧ (get_acct_id envOk stEmpty ['u'] ['h']).state.acct_ids
        = ainsert stEmpty.acct_ids (['u'] ++ '@' :: ['h'])
            (get_acct_id envOk stEmpty ['u'] ['h']).result
    ∧ (get_acct_id envOk stEmpty ['u'] ['h']).result
        = envOk.lookupAccount 0 (['u'] ++ '@' :: ['h']) := by
  have hth := C9_resolution_on_miss envOk stEmpty ['u'] ['h'] rfl (Or.inl rfl)
  exact ⟨hth.1, (hth.2.2 ['h'] rfl).1, (hth.2.2 ['h'] rfl).2 0 rfl⟩

theorem pySplit_no_sep (sep : Char) (l : Str) (h : sep ∉ l) :
    pySplit sep l = [l] := by
  induction l with
  | nil => rfl
  | cons c rest ih =>
    have hc : ¬ c = sep := fun he => h (by rw [he]; exact List.mem_cons_self _ _)
    have ih' := ih (fun hm => h (List.mem_cons_of_mem c hm))
    unfold pySplit
    rw [if_neg hc, ih']

theorem pySplit_append (sep : Char) (u t : Str) (hu : sep ∉ u) :
    pySplit sep (u ++ sep :: t) = u :: pySplit sep t := by
  induction u with
  | nil => simp [pySplit]
  | cons c u' ih =>
    have hc : ¬ c = sep := fun he => hu (by rw [he]; exact List.mem_cons_self _ _)
    have ih' := ih (fun hm => hu (List.mem_cons_of_mem c hm))
    simp only [List.cons_append]
    rw [pySplit, if_neg hc, ih']

/-- Updating only `previous_host` before a `set_host` with a concrete
hostname is invisible: `set_host` overwrites `previous_host` first. -/
theorem set_host_prev_frame (env : Env) (st : SwState) (p : Option Str)
    (hn : Str) :
    set_host env { st with previous_host := p } (some hn)
      = set_host env st (some hn) := by
  obtain ⟨ua, tk, cl, ah, ph, ai⟩ := st
  rfl

/-- `get_acct_id` never reads `previous_host`: its result and the
`clients`/`active_host` components of its final state are unchanged by a
prior update of `previous_host`. -/
theorem get_acct_id_prev_frame (env : Env) (st : SwState) (p : Option Str)
    (u h : Str) :
    (get_acct_id env { st with previous_host := p } u h).result
        = (get_acct_id env st u h).result
    ∧ (get_acct_id env { st with previous_host := p } u h).state.clients
        = (get_acct_id env st u h).state.clients
    ∧ (get_acct_id env { st with previous_host := p } u h).state.active_host
        = (get_acct_id env st u h).state.active_host := by
  unfold get_acct_id
  simp only [prev_upd_acct_ids, prev_upd_active, set_host_prev_frame]
  rcases hl : alookup st.acct_ids (u ++ '@' :: h) with _ | v <;> simp [hl]

theorem call_client_frame (env : Env) (s t : SwState) (name : Str)
    (kw : KwArgs) (hcl : s.clients = t.clients)
    (hac : s.active_host = t.active_host) :
    call_client env s name kw = call_client env t name kw := by
  unfold call_client
  rw [hcl, hac]

theorem dispatch_call_result_frame (env : Env) (s t : SwState) (name : Str)
    (i : Int) (kw : KwArgs) (orig : Option Str) (hcl : s.clients = t.clients)
    (hac : s.active_host = t.active_host) :
    (dispatch_call env s name i kw orig).result
      = (dispatch_call env t name i kw orig).result := by
  unfold dispatch_call
  simp only
  rw [call_client_frame env s t (redirect name) (mergeId kw i) hcl hac]

/-- C6 (confirmed): while `h` is the active host, the account forms
`"user@host"`, `"@user@host"` and bare `"user"` resolve to the same
account id: the `@`-prefixed form runs exactly the same computation as
`"user@host"`; the `"user@host"` form first re-activates `h`, which only
rewrites `previous_host`, so its id resolution coincides with the bare
form's, and whenever resolution yields an id the two calls return
identical results. -/
theorem C6_handle_forms_resolve_same_id (env : Env) (st : SwState)
    (name u h : Str) (kwargs : KwArgs) (hnu : u ≠ []) (hau : '@' ∉ u)
    (hah : '@' ∉ h) (hp : env.parseHostname h = h)
    (ha : st.active_host = some h) :
    account_method env st name (.strA ('@' :: (u ++ '@' :: h))) kwargs
      = account_method env st name (.strA (u ++ '@' :: h)) kwargs
    ∧ (get_acct_id env { st with previous_host := some h } u h).result
      = (get_acct_id env st u h).result
    ∧ ∀ i, (get_acct_id env st u h).result = some i →
        (account_method env st name (.strA (u ++ '@' :: h)) kwargs).result
          = (account_method env st name (.strA u) kwargs).result := by
  obtain ⟨c', u', rfl⟩ : ∃ c' u'', u = c' :: u'' := by
    cases u with
    | nil => exact absurd rfl hnu
    | cons a b => exact ⟨a, b, rfl⟩
  obtain ⟨ua, tk, cl, ah0, ph, ai⟩ := st
  have ha2 : ah0 = some h := ha
  subst ha2
  have hc' : ¬ c' = '@' := fun he => hau (by rw [he]; exact List.mem_cons_self _ _)
  have hsplit1 : pySplit '@' (c' :: (u' ++ '@' :: h)) = [c' :: u', h] := by
    have hx := pySplit_append '@' (c' :: u') h hau
    rw [pySplit_no_sep '@' h hah] at hx
    simpa using hx
  have hsplitu : pySplit '@' (c' :: u') = [c' :: u'] := pySplit_no_sep '@' _ hau
  have hstrip : stripAt (c' :: (u' ++ '@' :: h)) = c' :: (u' ++ '@' :: h) := by
    simp [stripAt, hc']
  have hstrip3 : stripAt (c' :: u') = c' :: u' := by
    simp [stripAt, hc']
  have e1 : account_method env ⟨ua, tk, cl, some h, ph, ai⟩ name
        (.strA (c' :: (u' ++ '@' :: h))) kwargs
      = after_switch env (set_host env ⟨ua, tk, cl, some h, ph, ai⟩ (some h)).1
          (set_host env ⟨ua, tk, cl, some h, ph, ai⟩ (some h)).2
          name (c' :: u') h (c' :: (u' ++ '@' :: h)) kwargs (some h) := by
    unfold account_method
    simp only [hstrip, hsplit1]
  have e2 : account_method env ⟨ua, tk, cl, some h, ph, ai⟩ name
        (.strA ('@' :: (c' :: (u' ++ '@' :: h)))) kwargs
      = after_switch env (set_host env ⟨ua, tk, cl, some h, ph, ai⟩ (some h)).1
          (set_host env ⟨ua, tk, cl, some h, ph, ai⟩ (some h)).2
          name (c' :: u') h (c' :: (u' ++ '@' :: h)) kwargs (some h) := by
    unfold account_method
    have hstrip2 : stripAt ('@' :: (c' :: (u' ++ '@' :: h)))
        = c' :: (u' ++ '@' :: h) := rfl
    simp only [hstrip2, hsplit1]
  have e3 : account_method env ⟨ua, tk, cl, some h, ph, ai⟩ name
        (.strA (c' :: u')) kwargs
      = after_switch env ⟨ua, tk, cl, some h, ph, ai⟩ [] name (c' :: u') h
          (c' :: u') kwargs (some h) := by
    unfold account_method
    simp only [hstrip3, hsplitu]
  have hnoop : set_host env (⟨ua, tk, cl, some h, ph, ai⟩ : SwState) (some h)
      = (⟨ua, tk, cl, some h, some h, ai⟩, []) := by
    have hx := set_host_noop env ⟨ua, tk, cl, some h, ph, ai⟩ h (by rw [hp])
    rw [hp] at hx
    exact hx
  simp only [List.cons_append]
  refine ⟨e2.trans e1.symm,
    (get_acct_id_prev_frame env ⟨ua, tk, cl, some h, ph, ai⟩ (some h)
      (c' :: u') h).1, ?_⟩
  intro i hres
  rw [e1, e3, hnoop]
  unfold after_switch
  dsimp only
  have hframe := get_acct_id_prev_frame env ⟨ua, tk, cl, some h, ph, ai⟩
    (some h) (c' :: u') h
  dsimp only at hframe
  rcases hO3 : get_acct_id env ⟨ua, tk, cl, some h, ph, ai⟩ (c' :: u') h
    with ⟨r3, s3, t3⟩
  rcases hO1 : get_acct_id env ⟨ua, tk, cl, some h, some h, ai⟩ (c' :: u') h
    with ⟨r1, s1, t1⟩
  rw [hO3, hO1] at hframe
  dsimp only at hframe
  obtain ⟨hr, hcl2, hac2⟩ := hframe
  rw [hO3] at hres
  dsimp only at hres
  subst hres
  obtain rfl : r1 = some i := hr
  dsimp only
  exact dispatch_call_result_frame env s1 s3 name i kwargs (some h) hcl2 hac2

/-- C6 witness. -/
theorem C6_witness :
    (['u'] : Str) ≠ [] ∧ '@' ∉ (['u'] : Str) ∧ '@' ∉ (['h'] : Str)
    ∧ envOk.parseHostname ['h'] = ['h']
    ∧ stActiveH.active_host = some ['h']
    ∧ account_method envOk stActiveH ['m'] (.strA ('@' :: (['u'] ++ '@' :: ['h']))) []
        = account_method envOk stActiveH ['m'] (.strA (['u'] ++ '@' :: ['h'])) []
    ∧ (get_acct_id envOk { stActiveH with previous_host := some ['h'] } ['u'] ['h']).result
        = (get_acct_id envOk stActiveH ['u'] ['h']).result
    ∧ ((get_acct_id envOk stActiveH ['u'] ['h']).result = some 7 →
        (account_method envOk stActiveH ['m'] (.strA (['u'] ++ '@' :: ['h'])) []).result
          = (account_method envOk stActiveH ['m'] (.strA ['u']) []).result) := by
  have hth := C6_handle_forms_resolve_same_id envOk stActiveH ['m'] ['u'] ['h'] []
    (by decide) (by decide) (by decide) rfl rfl
  exact ⟨by decide, by decide, by decide, rfl, rfl, hth.1, hth.2.1,
    fun hr => hth.2.2 7 hr⟩

